import Mathlib

/-!
Verification of the fwd event-forwarding pipeline: a shallow embedding of the
GitHub polling collector (internal/collector/github.go, internal/collector/collector.go),
the Pub/Sub batch publisher (internal/processor/pubsub.go) and the webhook push
adapters (receiver and source handlers), together with theorems settling the
specification claims about them.

Machine times are modelled as `Int` (Unix-style instants); `time.Before` is `<`.
-/

/-- types.Event (pkg/types/events.go): the normalized CloudEvents envelope.
`Extensions` is `map[string]any` in Go; every value stored by the code paths
modelled here is a string, so it is embedded as an association list. -/
structure Event where
  id : String
  source : String
  specVersion : String
  type : String
  time : Int
  data : String
  subject : String
  extensions : List (String × String)
  deriving Repr, DecidableEq

/-- A github.Event as consumed by GitHubCollector: identifier, creation time,
repository name, event type, actor login, whether ParsePayload succeeds, and the
marshalled payload bytes. -/
structure GHEvent where
  id : String
  createdAt : Int
  repoName : String
  eventType : String
  actor : String
  payloadOk : Bool
  payload : String
  deriving Repr, DecidableEq

/-- The Event built by GitHubCollector.convertGitHubEvent (github.go lines 44-75)
when ParsePayload succeeds. cloudevents.VersionV1 is the string 1.0. -/
def ghToEvent (orgName : String) (g : GHEvent) : Event :=
  { id := g.id
  , source := "//github.com/" ++ orgName ++ "/" ++ g.repoName
  , specVersion := "1.0"
  , type := "github." ++ g.eventType
  , time := g.createdAt
  , data := g.payload
  , subject := g.actor
  , extensions :=
      [("org", orgName), ("repo", g.repoName), ("actor", g.actor),
       ("raw_type", g.eventType)] }

/-- convertGitHubEvent: fails exactly when ParsePayload fails. -/
def convertGitHubEvent (orgName : String) (g : GHEvent) : Option Event :=
  if g.payloadOk then some (ghToEvent orgName g) else none

/-- The newest-first scan of collectEvents (github.go lines 151-189): an item equal
to the stored cursor flips foundLastSeen and is skipped; once the flag is set every
later item is skipped; before that, the first item older than the cutoff stops the
scan, items whose conversion fails are skipped, and the rest are emitted in order. -/
def scanEvents (orgName lastEventID : String) (cutoff : Int) :
    List GHEvent → Bool → List Event
  | [], _ => []
  | g :: rest, foundLastSeen =>
    if g.id = lastEventID then
      scanEvents orgName lastEventID cutoff rest true
    else if foundLastSeen then
      scanEvents orgName lastEventID cutoff rest foundLastSeen
    else if g.createdAt < cutoff then
      []
    else
      match convertGitHubEvent orgName g with
      | some e => e :: scanEvents orgName lastEventID cutoff rest foundLastSeen
      | none => scanEvents orgName lastEventID cutoff rest foundLastSeen

/-- One ListRepositoryEvents response: a transport error, or a page of events
together with whether a next page exists (eventResp.NextPage != 0). -/
inductive PageFetch where
  | fail : PageFetch
  | ok : List GHEvent → Bool → PageFetch
  deriving Repr, DecidableEq

/-- One rate-limiter Wait outcome drawn from a finite supply; an exhausted supply
means every further wait succeeds. -/
def popWait : List Bool → Bool × List Bool
  | [] => (true, [])
  | b :: rest => (b, rest)

/-- The event-pagination loop of collectEvents (github.go lines 111-146): each
iteration first waits on the limiter — a failed wait returns the error from the
whole collection cycle, modelled as none — then fetches a page. A fetch error is
logged and ends pagination keeping what was accumulated; an empty page ends
pagination; otherwise the latest id is taken from the first item of the first
non-empty page and pages accumulate until the API reports no next page. -/
def paginateEvents : List PageFetch → List Bool → String → List GHEvent →
    Option (String × List GHEvent × List Bool)
  | [], waits, latest, acc =>
    match popWait waits with
    | (false, _) => none
    | (true, waits1) => some (latest, acc, waits1)
  | PageFetch.fail :: _, waits, latest, acc =>
    match popWait waits with
    | (false, _) => none
    | (true, waits1) => some (latest, acc, waits1)
  | PageFetch.ok [] _ :: _, waits, latest, acc =>
    match popWait waits with
    | (false, _) => none
    | (true, waits1) => some (latest, acc, waits1)
  | PageFetch.ok (e :: es) next :: rest, waits, latest, acc =>
    match popWait waits with
    | (false, _) => none
    | (true, waits1) =>
      let latest1 := if latest = "" then e.id else latest
      let acc1 := acc ++ e :: es
      if next then paginateEvents rest waits1 latest1 acc1
      else some (latest1, acc1, waits1)

/-- Result of collecting one repository: the cursor update (some v means the
tracker is updated to v), the events emitted to the channel, the remaining
limiter supply, and whether a limiter failure aborted the whole cycle. -/
structure KeyResult where
  newCursor : Option String
  emitted : List Event
  waits : List Bool
  aborted : Bool
  deriving Repr, DecidableEq

/-- The per-repository body of collectEvents (github.go lines 105-194): paginate
the repository's events; if nothing was fetched, continue silently; otherwise scan
newest-first against the stored cursor, and always update the cursor to the latest
observed id when that id is non-empty. -/
def collectKey (orgName : String) (cutoff : Int) (lastEventID : String)
    (pages : List PageFetch) (waits : List Bool) : KeyResult :=
  match paginateEvents pages waits "" [] with
  | none => ⟨none, [], [], true⟩
  | some (latest, allEvents, waits1) =>
    if allEvents.isEmpty then ⟨none, [], waits1, false⟩
    else
      ⟨if latest = "" then none else some latest,
       scanEvents orgName lastEventID cutoff allEvents false, waits1, false⟩

/-- A repository as enumerated by Repositories.ListByOrg, with the pages its
event listing would return this cycle. -/
structure Repo where
  name : String
  eventPages : List PageFetch
  deriving Repr, DecidableEq

/-- EventTracker.GetLastEventID (collector.go): the zero value for unseen keys. -/
def lookupCursor (tracker : List (String × String)) (repo : String) : String :=
  match tracker.find? (fun p => p.fst = repo) with
  | some p => p.snd
  | none => ""

/-- EventTracker.UpdateLastEventID (collector.go): map update, latest write wins. -/
def updateCursor (tracker : List (String × String)) (repo v : String) :
    List (String × String) :=
  (repo, v) :: tracker.filter (fun p => ¬ p.fst = repo)

/-- Outcome of the repository loop for one page of repositories. -/
structure ReposOut where
  waits : List Bool
  tracker : List (String × String)
  emitted : List Event
  aborted : Bool
  deriving Repr, DecidableEq

/-- The repository loop of collectEvents (github.go lines 95-195): for each
repository, wait on the limiter (a failure returns the error, aborting the whole
cycle), skip every repository whose name is not elixir, and otherwise run the
per-repository collection followed by the cursor update. -/
def processRepos (orgName : String) (cutoff : Int) :
    List Repo → List Bool → List (String × String) → List Event → ReposOut
  | [], waits, tracker, emitted => ⟨waits, tracker, emitted, false⟩
  | repo :: rest, waits, tracker, emitted =>
    match popWait waits with
    | (false, _) => ⟨[], tracker, emitted, true⟩
    | (true, waits1) =>
      if repo.name = "elixir" then
        let r := collectKey orgName cutoff (lookupCursor tracker repo.name)
          repo.eventPages waits1
        if r.aborted then ⟨[], tracker, emitted, true⟩
        else
          processRepos orgName cutoff rest r.waits
            (match r.newCursor with
             | some v => updateCursor tracker repo.name v
             | none => tracker)
            (emitted ++ r.emitted)
      else processRepos orgName cutoff rest waits1 tracker emitted

/-- One Repositories.ListByOrg response: a transport error, or a page of
repositories with whether a next page exists. -/
inductive RepoPage where
  | fail : RepoPage
  | ok : List Repo → Bool → RepoPage
  deriving Repr, DecidableEq

/-- Result of one whole collectEvents cycle: final tracker state, all events sent
to the channel, and whether the cycle returned an error. -/
structure CycleOut where
  tracker : List (String × String)
  emitted : List Event
  errored : Bool
  deriving Repr, DecidableEq

/-- The outer repository-listing loop of collectEvents (github.go lines 85-203):
wait on the limiter and list one page of repositories — either failure returns an
error from the cycle — then process that page's repositories and continue while a
next page exists. State changed before an abort persists (events were already sent
to the channel and the tracker was already updated). -/
def collectLoop (orgName : String) (cutoff : Int) :
    List RepoPage → List Bool → List (String × String) → List Event → CycleOut
  | [], waits, tracker, emitted =>
    match popWait waits with
    | (false, _) => ⟨tracker, emitted, true⟩
    | (true, _) => ⟨tracker, emitted, false⟩
  | RepoPage.fail :: _, _, tracker, emitted => ⟨tracker, emitted, true⟩
  | RepoPage.ok repos next :: rest, waits, tracker, emitted =>
    match popWait waits with
    | (false, _) => ⟨tracker, emitted, true⟩
    | (true, waits1) =>
      let r := processRepos orgName cutoff repos waits1 tracker emitted
      if r.aborted then ⟨r.tracker, r.emitted, true⟩
      else if next then collectLoop orgName cutoff rest r.waits r.tracker r.emitted
      else ⟨r.tracker, r.emitted, false⟩

/-- GitHubCollector.collectEvents, one full cycle. -/
def collectEvents (orgName : String) (cutoff : Int) (pages : List RepoPage)
    (waits : List Bool) (tracker : List (String × String)) : CycleOut :=
  collectLoop orgName cutoff pages waits tracker []

/-- The environment one scheduled cycle runs against. -/
structure CycleInput where
  pages : List RepoPage
  waits : List Bool
  cutoff : Int
  deriving Repr, DecidableEq

/-- The collection driver launched by Start (github.go lines 206-234): one cycle
immediately, then one per tick; a cycle error is only logged and never stops the
loop, while the tracker state persists across cycles. -/
def runCycles (orgName : String) :
    List CycleInput → List (String × String) → List CycleOut
  | [], _ => []
  | inp :: rest, tracker =>
    let r := collectEvents orgName inp.cutoff inp.pages inp.waits tracker
    r :: runCycles orgName rest r.tracker

/-- The events of a page fetch, for stating hypotheses about listings. -/
def pageItems : PageFetch → List GHEvent
  | PageFetch.fail => []
  | PageFetch.ok evs _ => evs

/-! ## Pub/Sub processor (internal/processor/pubsub.go) -/

/-- A pubsub.Message as built by publishEvent: marshalled data plus attributes. -/
structure Message where
  data : String
  attributes : List (String × String)
  deriving Repr, DecidableEq

/-- Abstraction of json.Marshal on an Event: an injective serialization of its
fields. The exact byte format is irrelevant to every claim here. -/
def marshalEvent (e : Event) : String :=
  e.id ++ "|" ++ e.source ++ "|" ++ e.specVersion ++ "|" ++ e.type ++ "|" ++
    toString e.time ++ "|" ++ e.data ++ "|" ++ e.subject

/-- Outcome of a Go call: a value, a returned error, or a runtime panic. -/
inductive GoOutcome (α : Type) where
  | ok : α → GoOutcome α
  | err : GoOutcome α
  | panicked : GoOutcome α
  deriving Repr, DecidableEq

/-- PubSubProcessor.publishEvent (pubsub.go lines 130-154). json.Marshal of a nil
Event pointer yields null with no error, but the message construction then reads
event.Type, event.Source and event.ID unconditionally, so a nil event dereferences
a nil pointer and panics. For a non-nil event the message carries the marshalled
event and exactly the three attributes type, source, id; busOk tells whether the
synchronous publish result succeeds. -/
def publishEvent (busOk : Bool) (event : Option Event) : GoOutcome Message :=
  match event with
  | none => GoOutcome.panicked
  | some e =>
    let msg : Message :=
      { data := marshalEvent e
      , attributes := [("type", e.type), ("source", e.source), ("id", e.id)] }
    if busOk then GoOutcome.ok msg else GoOutcome.err

/-- The attributes of a published message, empty for error or panic outcomes. -/
def msgAttrs : GoOutcome Message → List (String × String)
  | GoOutcome.ok m => m.attributes
  | _ => []

/-- The actions executed by PubSubProcessor.Stop (pubsub.go lines 157-174), in
statement order: stop all sources, close the event channel, wait for the
processing goroutine, stop the topic, close the client. -/
inductive StopAction where
  | stopSources : StopAction
  | closeChannel : StopAction
  | waitGroup : StopAction
  | topicStop : StopAction
  | clientClose : StopAction
  deriving Repr, DecidableEq

/-- The statement sequence of PubSubProcessor.Stop. -/
def stopSequence : List StopAction :=
  [StopAction.stopSources, StopAction.closeChannel, StopAction.waitGroup,
   StopAction.topicStop, StopAction.clientClose]

/-- State of the processor during shutdown: the events buffered in the eventChan,
whether the channel is closed, whether the context is cancelled, the events for
which a publish attempt has been made, whether processEvents has returned, and
whether the bus resources (topic, client) have been released. -/
structure ProcState where
  queue : List Event
  closed : Bool
  ctxDone : Bool
  attempted : List Event
  loopDone : Bool
  busReleased : Bool
  deriving Repr, DecidableEq

/-- One step of the processEvents loop (pubsub.go lines 108-128) together with
Stop's release of the bus. The select statement makes the choice between a ready
receive and a fired ctx.Done nondeterministic: recv consumes one buffered event
and attempts its publication; recvClosed observes a closed empty channel and
returns; ctxExit returns through the ctx.Done branch, abandoning whatever is still
buffered; releaseBus models topic.Stop and client.Close, which Stop only reaches
after wg.Wait, hence after the loop has returned. -/
inductive ProcStep : ProcState → ProcState → Prop where
  | recv (s : ProcState) (e : Event) (rest : List Event) :
      s.loopDone = false → s.queue = e :: rest →
      ProcStep s { s with queue := rest, attempted := s.attempted ++ [e] }
  | recvClosed (s : ProcState) :
      s.loopDone = false → s.queue = [] → s.closed = true →
      ProcStep s { s with loopDone := true }
  | ctxExit (s : ProcState) :
      s.loopDone = false → s.ctxDone = true →
      ProcStep s { s with loopDone := true }
  | releaseBus (s : ProcState) :
      s.loopDone = true →
      ProcStep s { s with busReleased := true }

/-- Finite executions of the shutdown-time processor. -/
inductive ProcReach : ProcState → ProcState → Prop where
  | refl (s : ProcState) : ProcReach s s
  | step {s t u : ProcState} : ProcReach s t → ProcStep t u → ProcReach s u

/-! ## Webhook push adapters -/

/-- An inbound HTTP webhook request as read by the handlers: method, the
X-GitHub-Event header, whether the body reads successfully and its bytes, the
X-Hub-Signature-256 header, the X-GitHub-Delivery header, whether the body parses
as JSON, the extracted repository full name, the two echoed headers, and the
current time used for generated ids and timestamps. -/
structure WebhookRequest where
  method : String
  ghEvent : String
  bodyOk : Bool
  body : String
  signature : String
  deliveryID : String
  jsonOk : Bool
  repoFullName : String
  userAgent : String
  contentType : String
  now : Int
  deriving Repr, DecidableEq

/-- GitHubWebhookHandler.validateSignature (receiver handler), parameterized by
the HMAC-SHA256 hex-digest function so that independence from the cryptographic
check is provable: in debug mode a missing signature is accepted, an empty secret
is accepted, otherwise the sha256= prefix is required and the digest compared. -/
def ghwValidateSignature (mac : String → String → String) (debug : Bool)
    (secret sig body : String) : Bool :=
  if debug ∧ sig = "" then true
  else if secret = "" then true
  else if ¬ sig.startsWith "sha256=" then false
  else decide (sig.drop 7 = mac secret body)

/-- GitHubHandler.validateSignature (source handler): an empty secret or an empty
signature is accepted, otherwise the sha256= prefix is required and the
HMAC-SHA256 digest compared. -/
def ghValidateSignature (mac : String → String → String)
    (secret sig body : String) : Bool :=
  if secret = "" ∨ sig = "" then true
  else if ¬ sig.startsWith "sha256=" then false
  else decide (sig.drop 7 = mac secret body)

/-- TerraformCloudHandler.validateSignature: an empty secret or an empty signature
is accepted, otherwise the HMAC-SHA512 hex digest is compared to the whole
signature header. -/
def tfcValidateSignature (mac : String → String → String)
    (secret sig body : String) : Bool :=
  if secret = "" ∨ sig = "" then true
  else decide (sig = mac secret body)

/-- The normalized event built by GitHubWebhookHandler.HandleWebhook: a missing
delivery id is replaced by a generated one; the nested headers extension map is
flattened into its two string entries. -/
def webhookEvent (req : WebhookRequest) : Event :=
  let deliveryID := if req.deliveryID = "" then "gh_" ++ toString req.now
    else req.deliveryID
  { id := deliveryID
  , source := "github.com/" ++ req.repoFullName
  , specVersion := "1.0"
  , type := "github." ++ req.ghEvent
  , time := req.now
  , data := req.body
  , subject := ""
  , extensions :=
      [("delivery_id", deliveryID), ("event_type", req.ghEvent),
       ("repository", req.repoFullName),
       ("headers.User-Agent", req.userAgent),
       ("headers.Content-Type", req.contentType)] }

/-- GitHubWebhookHandler.HandleWebhook: method and header checks, signature
validation skipped in debug mode when no signature is present, JSON parsing, then
a single select with a default branch: one non-blocking enqueue into the bounded
event channel, answered 202 Accepted on success and 503 Service Unavailable when
the channel is full (the event is dropped). Returns the HTTP status code and the
channel contents after the request. -/
def handleWebhook (mac : String → String → String) (debug : Bool) (secret : String)
    (req : WebhookRequest) (queue : List Event) (cap : Nat) : Nat × List Event :=
  if ¬ req.method = "POST" then (405, queue)
  else if req.ghEvent = "" then (400, queue)
  else if ¬ req.bodyOk then (400, queue)
  else if (¬ debug ∨ ¬ req.signature = "") ∧
      ¬ ghwValidateSignature mac debug secret req.signature req.body = true then
    (401, queue)
  else if ¬ req.jsonOk then (400, queue)
  else if queue.length < cap then (202, queue ++ [webhookEvent req])
  else (503, queue)

/-! ## Helper lemmas about the collector -/

/-- Once foundLastSeen is set, the scan emits nothing further. -/
lemma scanEvents_found_nil (orgName lastEventID : String) (cutoff : Int) :
    ∀ evs : List GHEvent, scanEvents orgName lastEventID cutoff evs true = [] := by
  intro evs
  induction evs with
  | nil => rfl
  | cons g rest ih =>
    rw [scanEvents]
    split
    · exact ih
    · rw [if_pos rfl]
      exact ih

/-- With the limiter supply exhausted (every wait succeeds), pagination never
aborts and returns an empty remaining supply. -/
lemma paginateEvents_nil_waits :
    ∀ (pages : List PageFetch) (latest : String) (acc : List GHEvent),
      ∃ l a, paginateEvents pages [] latest acc = some (l, a, []) := by
  intro pages
  induction pages with
  | nil => intro latest acc; exact ⟨latest, acc, rfl⟩
  | cons p rest ih =>
    intro latest acc
    match p with
    | PageFetch.fail => exact ⟨latest, acc, rfl⟩
    | PageFetch.ok [] next => exact ⟨latest, acc, rfl⟩
    | PageFetch.ok (e :: es) next =>
      cases next with
      | false => exact ⟨_, _, rfl⟩
      | true =>
        obtain ⟨l, a, h⟩ := ih (if latest = "" then e.id else latest) (acc ++ e :: es)
        exact ⟨l, a, h⟩

/-- Once a non-empty latest id is recorded, pagination never changes it. -/
lemma paginateEvents_latest_stable :
    ∀ (pages : List PageFetch) (waits : List Bool) (l : String) (acc : List GHEvent)
      (l2 : String) (a2 : List GHEvent) (w2 : List Bool), ¬ l = "" →
      paginateEvents pages waits l acc = some (l2, a2, w2) → l2 = l := by
  intro pages
  induction pages with
  | nil =>
    intro waits l acc l2 a2 w2 hl h
    match hw : popWait waits with
    | (false, ws) => simp [paginateEvents, hw] at h
    | (true, ws) => simp [paginateEvents, hw] at h; exact h.1.symm
  | cons p rest ih =>
    intro waits l acc l2 a2 w2 hl h
    match p with
    | PageFetch.fail =>
      match hw : popWait waits with
      | (false, ws) => simp [paginateEvents, hw] at h
      | (true, ws) => simp [paginateEvents, hw] at h; exact h.1.symm
    | PageFetch.ok [] next =>
      match hw : popWait waits with
      | (false, ws) => simp [paginateEvents, hw] at h
      | (true, ws) => simp [paginateEvents, hw] at h; exact h.1.symm
    | PageFetch.ok (e :: es) next =>
      match hw : popWait waits with
      | (false, ws) => simp [paginateEvents, hw] at h
      | (true, ws) =>
        simp only [paginateEvents, hw, if_neg hl] at h
        cases next with
        | true => exact ih ws l (acc ++ e :: es) l2 a2 w2 hl (by simpa using h)
        | false => simp at h; exact h.1.symm

/-- Along pagination the latest id is empty exactly when nothing has been
accumulated, provided every listed item has a non-empty id. -/
lemma paginateEvents_latest_iff_acc :
    ∀ (pages : List PageFetch) (waits : List Bool) (l : String) (acc : List GHEvent)
      (l2 : String) (a2 : List GHEvent) (w2 : List Bool),
      (∀ p ∈ pages, ∀ g ∈ pageItems p, ¬ g.id = "") →
      (l = "" ↔ acc = []) →
      paginateEvents pages waits l acc = some (l2, a2, w2) → (l2 = "" ↔ a2 = []) := by
  intro pages
  induction pages with
  | nil =>
    intro waits l acc l2 a2 w2 _ hiff h
    match hw : popWait waits with
    | (false, ws) => simp [paginateEvents, hw] at h
    | (true, ws) =>
      simp [paginateEvents, hw] at h
      rw [← h.1, ← h.2.1]; exact hiff
  | cons p rest ih =>
    intro waits l acc l2 a2 w2 hids hiff h
    match p with
    | PageFetch.fail =>
      match hw : popWait waits with
      | (false, ws) => simp [paginateEvents, hw] at h
      | (true, ws) =>
        simp [paginateEvents, hw] at h
        rw [← h.1, ← h.2.1]; exact hiff
    | PageFetch.ok [] next =>
      match hw : popWait waits with
      | (false, ws) => simp [paginateEvents, hw] at h
      | (true, ws) =>
        simp [paginateEvents, hw] at h
        rw [← h.1, ← h.2.1]; exact hiff
    | PageFetch.ok (e :: es) next =>
      match hw : popWait waits with
      | (false, ws) => simp [paginateEvents, hw] at h
      | (true, ws) =>
        have hrest : ∀ p ∈ rest, ∀ g ∈ pageItems p, ¬ g.id = "" :=
          fun q hq => hids q (List.mem_cons_of_mem _ hq)
        have heid : ¬ e.id = "" :=
          hids (PageFetch.ok (e :: es) next) (List.mem_cons_self _ _) e
            (List.mem_cons_self _ _)
        have hiff1 : (if l = "" then e.id else l) = "" ↔ (acc ++ e :: es) = [] := by
          constructor
          · intro hsome
            by_cases hl : l = ""
            · rw [if_pos hl] at hsome; exact absurd hsome heid
            · rw [if_neg hl] at hsome; exact absurd hsome hl
          · intro hnil; exact absurd hnil (by simp)
        simp only [paginateEvents, hw] at h
        cases next with
        | true => exact ih ws _ _ l2 a2 w2 hrest hiff1 (by simpa using h)
        | false =>
          simp at h
          rw [← h.1, ← h.2.1]; exact hiff1

/-- The scan with an empty stored cursor equals the cutoff-bounded prefix of the
listing, converted: it stops at the first item older than the cutoff. -/
lemma scan_empty_cursor_take (org : String) (cutoff : Int) :
    ∀ evs : List GHEvent, (∀ g ∈ evs, ¬ g.id = "") →
      scanEvents org "" cutoff evs false =
        (evs.takeWhile (fun g => decide (cutoff ≤ g.createdAt))).filterMap
          (convertGitHubEvent org) := by
  intro evs
  induction evs with
  | nil => intro _; rfl
  | cons g rest ih =>
    intro hids
    have hg : ¬ g.id = "" := hids g (List.mem_cons_self _ _)
    have hrest : ∀ x ∈ rest, ¬ x.id = "" :=
      fun x hx => hids x (List.mem_cons_of_mem _ hx)
    rw [scanEvents, if_neg hg, if_neg (by simp), List.takeWhile_cons]
    by_cases ht : g.createdAt < cutoff
    · rw [if_pos ht]
      have : decide (cutoff ≤ g.createdAt) = false := by
        simpa using Int.not_le.mpr ht
      rw [this]
      rfl
    · rw [if_neg ht]
      have hdec : decide (cutoff ≤ g.createdAt) = true := by
        simpa using Int.not_lt.mp ht
      rw [hdec]
      cases hconv : convertGitHubEvent org g with
      | none => simp [List.filterMap_cons, hconv, ih hrest]
      | some ev => simp [List.filterMap_cons, hconv, ih hrest]

/-- Every event the scan emits is within the cutoff window. -/
lemma scan_emits_within_cutoff (org last : String) (cutoff : Int) :
    ∀ evs : List GHEvent, ∀ e ∈ scanEvents org last cutoff evs false,
      ¬ e.time < cutoff := by
  intro evs
  induction evs with
  | nil => intro e he; simp [scanEvents] at he
  | cons g rest ih =>
    intro e he
    rw [scanEvents] at he
    by_cases hid : g.id = last
    · rw [if_pos hid, scanEvents_found_nil] at he; simp at he
    · rw [if_neg hid, if_neg (by simp)] at he
      by_cases ht : g.createdAt < cutoff
      · rw [if_pos ht] at he; simp at he
      · rw [if_neg ht] at he
        cases hconv : convertGitHubEvent org g with
        | none =>
          rw [hconv] at he
          exact ih e he
        | some ev =>
          rw [hconv] at he
          rcases List.mem_cons.mp he with h1 | h1
          · have hev : ev = ghToEvent org g := by
              unfold convertGitHubEvent at hconv
              split at hconv
              · exact (Option.some.inj hconv).symm
              · simp at hconv
            rw [h1, hev]
            exact ht
          · exact ih e h1

/-! ## Claim theorems for the collector -/

/-- C1: for one polling cycle of one key with stored cursor B and a newest-first
listing D, C, B, A all within the cutoff window, the collector emits normalized
events for exactly D then C in that order, never re-emits the item whose id equals
the stored cursor, emits nothing for A, and sets the key's cursor to the id of D. -/
theorem collector_dedup_cycle (org : String) (cutoff : Int) (d c b a : GHEvent)
    (hb : b.id = "B") (hd : ¬ d.id = "B") (hc : ¬ c.id = "B") (ha : ¬ a.id = "B")
    (hdne : ¬ d.id = "")
    (hdt : ¬ d.createdAt < cutoff) (hct : ¬ c.createdAt < cutoff)
    (hbt : ¬ b.createdAt < cutoff) (hata : ¬ a.createdAt < cutoff)
    (hdp : d.payloadOk = true) (hcp : c.payloadOk = true) :
    collectKey org cutoff "B" [PageFetch.ok [d, c, b, a] false] [] =
      ⟨some d.id, [ghToEvent org d, ghToEvent org c], [], false⟩ := by
  simp [collectKey, paginateEvents, popWait, scanEvents, convertGitHubEvent,
    hb, hd, hc, ha, hdne, hdt, hct, hbt, hata, hdp, hcp]

theorem collector_dedup_cycle_witness :
    collectKey "acme" 0 "B"
      [PageFetch.ok
        [⟨"D", 4, "r", "push", "u", true, "pd"⟩,
         ⟨"C", 3, "r", "push", "u", true, "pc"⟩,
         ⟨"B", 2, "r", "push", "u", true, "pb"⟩,
         ⟨"A", 1, "r", "push", "u", true, "pa"⟩] false] [] =
      ⟨some "D",
       [ghToEvent "acme" ⟨"D", 4, "r", "push", "u", true, "pd"⟩,
        ghToEvent "acme" ⟨"C", 3, "r", "push", "u", true, "pc"⟩], [], false⟩ := by
  exact collector_dedup_cycle "acme" 0
    ⟨"D", 4, "r", "push", "u", true, "pd"⟩ ⟨"C", 3, "r", "push", "u", true, "pc"⟩
    ⟨"B", 2, "r", "push", "u", true, "pb"⟩ ⟨"A", 1, "r", "push", "u", true, "pa"⟩
    rfl (by decide) (by decide) (by decide) (by decide)
    (by decide) (by decide) (by decide) (by decide) rfl rfl

/-- C3: with an empty stored cursor (first-ever run) the scan emits exactly the
converted prefix of items not older than the cutoff — it stops at the first older
item — and every emitted event's time is within the window. -/
theorem collector_first_run_cutoff (org : String) (cutoff : Int)
    (evs : List GHEvent) (hids : ∀ g ∈ evs, ¬ g.id = "") :
    scanEvents org "" cutoff evs false =
      (evs.takeWhile (fun g => decide (cutoff ≤ g.createdAt))).filterMap
        (convertGitHubEvent org) ∧
    ∀ e ∈ scanEvents org "" cutoff evs false, ¬ e.time < cutoff :=
  ⟨scan_empty_cursor_take org cutoff evs hids,
   scan_emits_within_cutoff org "" cutoff evs⟩

theorem collector_first_run_cutoff_witness :
    scanEvents "acme" "" 10
      [⟨"N1", 12, "r", "push", "u", true, "p1"⟩,
       ⟨"O1", 5, "r", "push", "u", true, "p2"⟩,
       ⟨"N2", 11, "r", "push", "u", true, "p3"⟩] false =
      [ghToEvent "acme" ⟨"N1", 12, "r", "push", "u", true, "p1"⟩] := by
  have h := (collector_first_run_cutoff "acme" 10
    [⟨"N1", 12, "r", "push", "u", true, "p1"⟩,
     ⟨"O1", 5, "r", "push", "u", true, "p2"⟩,
     ⟨"N2", 11, "r", "push", "u", true, "p3"⟩] (by decide)).1
  exact h.trans (by decide)

/-- C2: with every limiter wait succeeding, the latest observed id is the id of
the first item of the first listing page; the cursor for the key is set exactly
when that id is non-empty (and to that id); and a key whose listing returns no
items is skipped silently with no cursor change and no emission. -/
theorem collector_cursor_advance (org : String) (cutoff : Int) (last : String)
    (pages : List PageFetch)
    (hids : ∀ p ∈ pages, ∀ g ∈ pageItems p, ¬ g.id = "") :
    (∀ e es next rest, pages = PageFetch.ok (e :: es) next :: rest →
        ∃ acc, paginateEvents pages [] "" [] = some (e.id, acc, [])) ∧
    (∀ l acc, paginateEvents pages [] "" [] = some (l, acc, []) →
        (collectKey org cutoff last pages []).newCursor =
          if l = "" then none else some l) ∧
    (∀ next rest, pages = PageFetch.ok [] next :: rest →
        collectKey org cutoff last pages [] = ⟨none, [], [], false⟩) ∧
    (pages = [] → collectKey org cutoff last pages [] = ⟨none, [], [], false⟩) := by
  refine ⟨?_, ?_, ?_, ?_⟩
  · intro e es next rest hp
    subst hp
    have heid : ¬ e.id = "" :=
      hids (PageFetch.ok (e :: es) next) (List.mem_cons_self _ _) e
        (List.mem_cons_self _ _)
    cases next with
    | false => exact ⟨e :: es, rfl⟩
    | true =>
      obtain ⟨l, a, h⟩ := paginateEvents_nil_waits rest e.id (e :: es)
      have hl : l = e.id := paginateEvents_latest_stable rest [] e.id (e :: es)
        l a [] heid h
      subst hl
      exact ⟨a, h⟩
  · intro l acc h
    have hiff : l = "" ↔ acc = [] :=
      paginateEvents_latest_iff_acc pages [] "" [] l acc [] hids (by simp) h
    unfold collectKey
    rw [h]
    show (if acc.isEmpty then (⟨none, [], [], false⟩ : KeyResult)
      else ⟨if l = "" then none else some l,
        scanEvents org last cutoff acc false, [], false⟩).newCursor =
      if l = "" then none else some l
    by_cases hacc : acc.isEmpty
    · have hle : l = "" := hiff.mpr (List.isEmpty_iff.mp hacc)
      rw [if_pos hacc, hle]
      simp
    · rw [if_neg hacc]
  · intro next rest hp
    subst hp
    rfl
  · intro hp
    subst hp
    rfl

theorem collector_cursor_advance_witness :
    (collectKey "acme" 0 "old"
      [PageFetch.ok [⟨"X", 5, "r", "push", "u", true, "p"⟩] false] []).newCursor =
      some "X" := by
  have h := (collector_cursor_advance "acme" 0 "old"
    [PageFetch.ok [⟨"X", 5, "r", "push", "u", true, "p"⟩] false] (by decide)).2.1
    "X" [⟨"X", 5, "r", "push", "u", true, "p"⟩] rfl
  exact h.trans (by decide)

/-- C6 counterexample: a single rate-limiter wait failure while processing the
first repository returns an error from collectEvents and aborts the entire cycle
— the second repository (which has a fresh in-window event) is never processed in
that cycle, its event is not emitted and its cursor is not set — contradicting
the claim that such an error aborts only the current key's cycle and that the
collector moves on to the next key within the same cycle. The second conjunct
shows the identical cycle with all waits succeeding does process that key. -/
theorem limiter_abort_counterexample :
    collectEvents "acme" 0
        [RepoPage.ok
          [⟨"alpha", []⟩,
           ⟨"elixir", [PageFetch.ok [⟨"42", 5, "elixir", "PushEvent", "bob", true, "pl"⟩] false]⟩]
          false]
        [true, false] [] = ⟨[], [], true⟩ ∧
    collectEvents "acme" 0
        [RepoPage.ok
          [⟨"alpha", []⟩,
           ⟨"elixir", [PageFetch.ok [⟨"42", 5, "elixir", "PushEvent", "bob", true, "pl"⟩] false]⟩]
          false]
        [true, true] [] =
      ⟨[("elixir", "42")],
       [ghToEvent "acme" ⟨"42", 5, "elixir", "PushEvent", "bob", true, "pl"⟩],
       false⟩ := by
  constructor <;> rfl

/-- C6 amended: a listing-API transport error while fetching one repository's
events ends only that repository's pagination — the events already fetched are
still scanned and the cycle goes on — whereas a rate-limiter wait failure aborts
the whole current cycle with an error, skipping every remaining repository; in
either case the cycle driver only logs the error, so every scheduled cycle still
runs and nothing is fatal to the process. -/
theorem error_isolation_amended :
    (∀ (org last : String) (cutoff : Int) (e : GHEvent) (es : List GHEvent)
        (restPages : List PageFetch),
      collectKey org cutoff last
          (PageFetch.ok (e :: es) true :: PageFetch.fail :: restPages) [] =
        collectKey org cutoff last [PageFetch.ok (e :: es) false] []) ∧
    (∀ (org : String) (cutoff : Int) (r : Repo) (rest : List Repo)
        (ws : List Bool) (tracker : List (String × String)) (emitted : List Event),
      processRepos org cutoff (r :: rest) (false :: ws) tracker emitted =
        ⟨[], tracker, emitted, true⟩) ∧
    (∀ (org : String) (inputs : List CycleInput) (tracker : List (String × String)),
      (runCycles org inputs tracker).length = inputs.length) := by
  refine ⟨fun org last cutoff e es restPages => rfl,
          fun org cutoff r rest ws tracker emitted => rfl, ?_⟩
  intro org inputs
  induction inputs with
  | nil => intro tracker; rfl
  | cons inp rest ih =>
    intro tracker
    rw [runCycles, List.length_cons, ih]
    rfl

/-- C9: the repository loop contains a hardcoded filter that skips every
repository whose name is not elixir, so an enumerated repository named widgets
with a fresh in-window event produces no emission and no cursor movement, while
the identical listing under the name elixir is processed — the code excludes
enumerated repositories from processing, contradicting the stated enumeration
behaviour. -/
theorem elixir_filter_bug :
    collectEvents "acme" 0
        [RepoPage.ok
          [⟨"widgets", [PageFetch.ok [⟨"101", 5, "widgets", "PushEvent", "alice", true, "pl"⟩] false]⟩]
          false] [] [] =
      ⟨[], [], false⟩ ∧
    collectEvents "acme" 0
        [RepoPage.ok
          [⟨"elixir", [PageFetch.ok [⟨"101", 5, "elixir", "PushEvent", "alice", true, "pl"⟩] false]⟩]
          false] [] [] =
      ⟨[("elixir", "101")],
       [ghToEvent "acme" ⟨"101", 5, "elixir", "PushEvent", "alice", true, "pl"⟩],
       false⟩ := by
  constructor <;> rfl

/-! ## Claim theorems for the processor -/

/-- A concrete normalized event used by the shutdown scenario. -/
def shutdownEvt : Event := ⟨"evt-1", "src", "1.0", "github.push", 0, "d", "", []⟩

/-- C4 counterexample: with one event still buffered when shutdown begins and the
context already cancelled (cmd/fwd/main.go calls cancel before Stop), the
processing loop may take the ctx.Done branch of its select and return, after
which Stop releases the bus — the final state has the bus released, an empty list
of publish attempts, and the buffered event still sitting in the abandoned queue:
it was silently discarded by the shutdown path, contradicting the claim that
every buffered event gets a delivery attempt. -/
theorem shutdown_discard_counterexample :
    ProcReach ⟨[shutdownEvt], true, true, [], false, false⟩
        ⟨[shutdownEvt], true, true, [], true, true⟩ ∧
    (⟨[shutdownEvt], true, true, [], true, true⟩ : ProcState).busReleased = true ∧
    (⟨[shutdownEvt], true, true, [], true, true⟩ : ProcState).attempted = [] := by
  refine ⟨?_, rfl, rfl⟩
  have h1 : ProcStep ⟨[shutdownEvt], true, true, [], false, false⟩
      ⟨[shutdownEvt], true, true, [], true, false⟩ :=
    ProcStep.ctxExit _ rfl rfl
  have h2 : ProcStep ⟨[shutdownEvt], true, true, [], true, false⟩
      ⟨[shutdownEvt], true, true, [], true, true⟩ :=
    ProcStep.releaseBus _ rfl
  exact ProcReach.step (ProcReach.step (ProcReach.refl _) h1) h2

/-- Invariant of the shutdown-time processor when the context is never
cancelled: the attempts so far plus the remaining queue are exactly the initial
buffer, the loop only ends with an empty queue, and the bus is only released
after the loop ends. -/
lemma shutdown_inv (q0 : List Event) :
    ∀ s : ProcState, ProcReach ⟨q0, true, false, [], false, false⟩ s →
      s.ctxDone = false ∧ s.attempted ++ s.queue = q0 ∧
      (s.loopDone = true → s.queue = []) ∧
      (s.busReleased = true → s.loopDone = true) := by
  intro s h
  induction h with
  | refl =>
    refine ⟨rfl, rfl, fun h => ?_, fun h => ?_⟩ <;> simp at h
  | step hr hs ih =>
    obtain ⟨ih1, ih2, ih3, ih4⟩ := ih
    cases hs with
    | recv e rest hld hq =>
      refine ⟨ih1, ?_, fun hl => ?_, fun hb => ih4 hb⟩
      · show (ProcState.attempted _ ++ [e]) ++ rest = q0
        rw [List.append_assoc, List.singleton_append, ← hq]
        exact ih2
      · exact absurd (show ProcState.loopDone _ = true from hl) (by simp [hld])
    | recvClosed hld hq hc =>
      exact ⟨ih1, ih2, fun _ => hq, fun _ => rfl⟩
    | ctxExit hld hctx =>
      exact absurd hctx (by simp [ih1])
    | releaseBus hld =>
      exact ⟨ih1, ih2, fun h => ih3 h, fun _ => hld⟩

/-- C4 amended: the Stop sequence stops the sources, then closes the queue, then
waits for the processing loop, then releases the bus; and provided the processing
loop never observes a cancelled context, every event buffered at the moment the
queue is closed has had a publish attempt by the time the bus is released.
(When the context has been cancelled concurrently, the select race in
processEvents can instead discard the buffer, as the counterexample shows.) -/
theorem shutdown_drain_without_cancel (q0 : List Event) (s : ProcState)
    (h : ProcReach ⟨q0, true, false, [], false, false⟩ s)
    (hb : s.busReleased = true) :
    s.attempted = q0 ∧ stopSequence =
      [StopAction.stopSources, StopAction.closeChannel, StopAction.waitGroup,
       StopAction.topicStop, StopAction.clientClose] := by
  obtain ⟨-, h2, h3, h4⟩ := shutdown_inv q0 s h
  have hq : s.queue = [] := h3 (h4 hb)
  rw [hq, List.append_nil] at h2
  exact ⟨h2, rfl⟩

theorem shutdown_drain_without_cancel_witness :
    (⟨[], true, false, [shutdownEvt], true, true⟩ : ProcState).attempted =
      [shutdownEvt] := by
  have htrace : ProcReach ⟨[shutdownEvt], true, false, [], false, false⟩
      ⟨[], true, false, [shutdownEvt], true, true⟩ := by
    have h1 : ProcStep ⟨[shutdownEvt], true, false, [], false, false⟩
        ⟨[], true, false, [shutdownEvt], false, false⟩ :=
      ProcStep.recv _ shutdownEvt [] rfl rfl
    have h2 : ProcStep ⟨[], true, false, [shutdownEvt], false, false⟩
        ⟨[], true, false, [shutdownEvt], true, false⟩ :=
      ProcStep.recvClosed _ rfl rfl rfl
    have h3 : ProcStep ⟨[], true, false, [shutdownEvt], true, false⟩
        ⟨[], true, false, [shutdownEvt], true, true⟩ :=
      ProcStep.releaseBus _ rfl
    exact ProcReach.step (ProcReach.step (ProcReach.step (ProcReach.refl _) h1) h2) h3
  exact (shutdown_drain_without_cancel [shutdownEvt]
    ⟨[], true, false, [shutdownEvt], true, true⟩ htrace rfl).1

/-- C7 counterexample: publishEvent performs no nil check; a nil event reaching
the per-event publish step is dereferenced while the message attributes are built
and the process panics — it is not a defensive no-op. -/
theorem publish_nil_counterexample :
    publishEvent true none = GoOutcome.panicked := rfl

/-- C7 amended: a nil event reaching publishEvent causes a nil-pointer panic
(there is no defensive no-op), while an empty zero-value event is marshalled and
published as an ordinary message rather than skipped. -/
theorem publish_nil_amended :
    (∀ b : Bool, publishEvent b none = GoOutcome.panicked) ∧
    (∀ e : Event, publishEvent true (some e) =
      GoOutcome.ok ⟨marshalEvent e,
        [("type", e.type), ("source", e.source), ("id", e.id)]⟩) :=
  ⟨fun b => by cases b <;> rfl, fun e => rfl⟩

/-- A concrete event carrying an extensions entry, for the attributes claim. -/
def extEvt : Event := ⟨"id8", "src8", "1.0", "github.push", 0, "d", "", [("k", "v")]⟩

/-- C8 counterexample: an event with an attributes/extensions entry k = v is
published with message attributes that do not contain that entry — the published
attribute metadata is built from type, source and id only, so the event's
attributes mapping is not included, contradicting the claim. -/
theorem publish_attrs_counterexample :
    ("k", "v") ∈ extEvt.extensions ∧
    ¬ ("k", "v") ∈ msgAttrs (publishEvent true (some extEvt)) := by
  constructor
  · simp [extEvt]
  · decide

/-- C8 amended: the routing metadata attached to every published message is
derived from the event's type, source and id only; the event's
attributes/extensions travel solely inside the marshalled payload. -/
theorem publish_attrs_amended :
    ∀ (e : Event) (b : Bool),
      publishEvent b (some e) =
          GoOutcome.ok ⟨marshalEvent e,
            [("type", e.type), ("source", e.source), ("id", e.id)]⟩ ∨
        publishEvent b (some e) = GoOutcome.err := by
  intro e b
  cases b
  · right; rfl
  · left; rfl

/-! ## Claim theorems for the webhook adapters -/

/-- C5: every request that reaches the enqueue step makes exactly one
non-blocking attempt on the bounded queue: when the queue has room the event is
appended and the caller is answered 202 Accepted; when the queue is full the
attempt fails immediately, the event is dropped and the caller is answered 503
Service Unavailable. -/
theorem webhook_enqueue_backpressure (mac : String → String → String)
    (secret : String) (req : WebhookRequest) (queue : List Event) (cap : Nat)
    (hm : req.method = "POST") (he : ¬ req.ghEvent = "") (hb : req.bodyOk = true)
    (hs : ¬ req.signature = "" →
      ghwValidateSignature mac true secret req.signature req.body = true)
    (hj : req.jsonOk = true) :
    handleWebhook mac true secret req queue cap =
      if queue.length < cap then (202, queue ++ [webhookEvent req])
      else (503, queue) := by
  have hcond : ¬ ((¬ true = true ∨ ¬ req.signature = "") ∧
      ¬ ghwValidateSignature mac true secret req.signature req.body = true) := by
    rintro ⟨h1, h2⟩
    rcases h1 with h1 | h1
    · exact h1 rfl
    · exact h2 (hs h1)
  unfold handleWebhook
  rw [if_neg (by simp [hm]), if_neg he, if_neg (by simp [hb]), if_neg hcond,
    if_neg (by simp [hj])]

/-- A concrete valid GitHub webhook request. -/
def ghReq : WebhookRequest :=
  ⟨"POST", "push", true, "payload", "", "del-1", true, "octo/repo", "ua", "ct", 7⟩

theorem webhook_enqueue_backpressure_witness :
    handleWebhook (fun _ _ => "mac") true "" ghReq [] 0 = (503, []) ∧
    handleWebhook (fun _ _ => "mac") true "" ghReq [] 1 =
      (202, [webhookEvent ghReq]) := by
  constructor
  · exact (webhook_enqueue_backpressure (fun _ _ => "mac") "" ghReq [] 0 rfl
      (by decide) rfl (fun h => absurd rfl h) rfl).trans (by decide)
  · exact (webhook_enqueue_backpressure (fun _ _ => "mac") "" ghReq [] 1 rfl
      (by decide) rfl (fun h => absurd rfl h) rfl).trans (by decide)

/-- C10: for all three webhook validators, an empty configured secret — or, for
the debug-mode GitHub receiver handler, a missing signature — yields acceptance;
whenever the secret or the signature is empty the verdict is independent of the
HMAC function (no cryptographic check is performed); the HMAC comparison governs
the verdict exactly when both a secret and a signature are present; and a request
with an empty secret that passes the non-cryptographic checks is processed
through to the enqueue step (answered 202 or 503, never 401). -/
theorem signature_skip_paths (mac mac2 : String → String → String) :
    (∀ (debug : Bool) (sig body : String),
        ghwValidateSignature mac debug "" sig body = true) ∧
    (∀ (secret body : String),
        ghwValidateSignature mac true secret "" body = true) ∧
    (∀ (sig body : String), ghValidateSignature mac "" sig body = true) ∧
    (∀ (secret body : String), ghValidateSignature mac secret "" body = true) ∧
    (∀ (sig body : String), tfcValidateSignature mac "" sig body = true) ∧
    (∀ (secret body : String), tfcValidateSignature mac secret "" body = true) ∧
    (∀ (debug : Bool) (secret sig body : String), secret = "" ∨ sig = "" →
        ghwValidateSignature mac debug secret sig body =
            ghwValidateSignature mac2 debug secret sig body ∧
        ghValidateSignature mac secret sig body =
            ghValidateSignature mac2 secret sig body ∧
        tfcValidateSignature mac secret sig body =
            tfcValidateSignature mac2 secret sig body) ∧
    (∀ (secret sig body : String), ¬ secret = "" → ¬ sig = "" →
        (tfcValidateSignature mac secret sig body = true ↔
          sig = mac secret body) ∧
        (sig.startsWith "sha256=" = true →
          (ghValidateSignature mac secret sig body = true ↔
            sig.drop 7 = mac secret body))) ∧
    (∀ (secret : String) (req : WebhookRequest) (queue : List Event) (cap : Nat),
        secret = "" → req.method = "POST" → ¬ req.ghEvent = "" →
        req.bodyOk = true → req.jsonOk = true →
        ((handleWebhook mac true secret req queue cap).fst = 202 ∨
         (handleWebhook mac true secret req queue cap).fst = 503)) := by
  refine ⟨?_, ?_, ?_, ?_, ?_, ?_, ?_, ?_, ?_⟩
  · intro debug sig body
    by_cases h1 : debug = true ∧ sig = ""
    · rw [ghwValidateSignature, if_pos h1]
    · rw [ghwValidateSignature, if_neg h1, if_pos rfl]
  · intro secret body
    rw [ghwValidateSignature, if_pos ⟨rfl, rfl⟩]
  · intro sig body
    rw [ghValidateSignature, if_pos (Or.inl rfl)]
  · intro secret body
    rw [ghValidateSignature, if_pos (Or.inr rfl)]
  · intro sig body
    rw [tfcValidateSignature, if_pos (Or.inl rfl)]
  · intro secret body
    rw [tfcValidateSignature, if_pos (Or.inr rfl)]
  · intro debug secret sig body h
    refine ⟨?_, ?_, ?_⟩
    · by_cases h1 : debug = true ∧ sig = ""
      · rw [ghwValidateSignature, if_pos h1, ghwValidateSignature, if_pos h1]
      · rcases h with hsec | hsig
        · rw [ghwValidateSignature, if_neg h1, if_pos hsec,
            ghwValidateSignature, if_neg h1, if_pos hsec]
        · by_cases h2 : secret = ""
          · rw [ghwValidateSignature, if_neg h1, if_pos h2,
              ghwValidateSignature, if_neg h1, if_pos h2]
          · subst hsig
            have hsw : ¬ (("" : String).startsWith "sha256=" = true) := by decide
            rw [ghwValidateSignature, if_neg h1, if_neg h2, if_pos hsw,
              ghwValidateSignature, if_neg h1, if_neg h2, if_pos hsw]
    · rcases h with hsec | hsig
      · rw [ghValidateSignature, if_pos (Or.inl hsec),
          ghValidateSignature, if_pos (Or.inl hsec)]
      · rw [ghValidateSignature, if_pos (Or.inr hsig),
          ghValidateSignature, if_pos (Or.inr hsig)]
    · rcases h with hsec | hsig
      · rw [tfcValidateSignature, if_pos (Or.inl hsec),
          tfcValidateSignature, if_pos (Or.inl hsec)]
      · rw [tfcValidateSignature, if_pos (Or.inr hsig),
          tfcValidateSignature, if_pos (Or.inr hsig)]
  · intro secret sig body h1 h2
    constructor
    · rw [tfcValidateSignature, if_neg (by simp [h1, h2])]
      simp
    · intro hst
      rw [ghValidateSignature, if_neg (by simp [h1, h2]), if_neg (by simp [hst])]
      simp
  · intro secret req queue cap hsec hm he hb hj
    subst hsec
    have hcond : ¬ ((¬ true = true ∨ ¬ req.signature = "") ∧
        ¬ ghwValidateSignature mac true "" req.signature req.body = true) := by
      rintro ⟨-, h2⟩
      apply h2
      by_cases hd : true = true ∧ req.signature = ""
      · rw [ghwValidateSignature, if_pos hd]
      · rw [ghwValidateSignature, if_neg hd, if_pos rfl]
    unfold handleWebhook
    rw [if_neg (by simp [hm]), if_neg he, if_neg (by simp [hb]), if_neg hcond,
      if_neg (by simp [hj])]
    by_cases hq : queue.length < cap
    · rw [if_pos hq]
      left
      rfl
    · rw [if_neg hq]
      right
      rfl

/-- A concrete valid GitHub webhook request with no signature header. -/
def dbgReq : WebhookRequest :=
  ⟨"POST", "issues", true, "payload2", "", "del-2", true, "octo/repo2", "ua", "ct", 9⟩

theorem signature_skip_paths_witness :
    ghwValidateSignature (fun _ _ => "m1") true "" "sigv" "body" = true ∧
    ghValidateSignature (fun _ _ => "m1") "sek" "" "body" = true ∧
    tfcValidateSignature (fun _ _ => "m1") "" "sigv" "body" = true ∧
    ghwValidateSignature (fun _ _ => "m1") false "" "sigv" "body" =
      ghwValidateSignature (fun _ _ => "m2") false "" "sigv" "body" ∧
    (tfcValidateSignature (fun _ _ => "m1") "sek" "sigv" "body" = true ↔
      "sigv" = (fun _ _ => "m1") "sek" "body") ∧
    ((handleWebhook (fun _ _ => "m1") true "" dbgReq [] 4).fst = 202 ∨
     (handleWebhook (fun _ _ => "m1") true "" dbgReq [] 4).fst = 503) := by
  have h := signature_skip_paths (fun _ _ => "m1") (fun _ _ => "m2")
  exact ⟨h.1 true "sigv" "body",
    h.2.2.2.1 "sek" "body",
    h.2.2.2.2.1 "sigv" "body",
    (h.2.2.2.2.2.2.1 false "" "sigv" "body" (Or.inl rfl)).1,
    (h.2.2.2.2.2.2.2.1 "sek" "sigv" "body" (by decide) (by decide)).1,
    h.2.2.2.2.2.2.2.2 "" dbgReq [] 4 rfl rfl (by decide) rfl rfl⟩
